import Mathlib

/-!
# Verification of the prism overlay core (hystatutils)

Shallow embedding of the nickname-resolution ("denick") pipeline, the
TTL cache, the settings serialization, the winstreak fetch, and models of
the rate limiter, fetch coalescing, log-line classification and the
controller's playerdata error taxonomy, together with proofs of the
specified properties.

Python conventions embedded here:
 - machine floats for timestamps are idealised as `Int` instants;
 - JSON values are the inductive `Json` below (numbers restricted to
   integers, which is all the claims need);
 - Python truthiness (`if not x`) is the `Json.truthy` function;
 - fallible code paths return `Option`.
-/

namespace Prism

/-- JSON value as produced by `response.json()`.  Numbers are restricted to
integers (floats never matter for the properties considered). -/
inductive Json where
  | null : Json
  | bool (b : Bool) : Json
  | num (n : Int) : Json
  | str (s : String) : Json
  | arr (elems : List Json) : Json
  | obj (fields : List (String × Json)) : Json
  deriving Repr

/-- Python truthiness of a decoded JSON value (`bool(x)`): `None`, `False`,
`0`, `""`, `[]` and `{}` are falsy, everything else truthy. -/
def Json.truthy : Json → Bool
  | .null => false
  | .bool b => b
  | .num n => n != 0
  | .str s => s != ""
  | .arr elems => !elems.isEmpty
  | .obj fields => !fields.isEmpty

/-- `d.get(k)` on a decoded JSON object, returning `none` when the key is
absent (Python `dict.get(k, None)`). -/
def dictGet (fields : List (String × Json)) (k : String) : Option Json :=
  (fields.find? (fun p => p.1 == k)).map (fun p => p.2)

/-- `d.get(k, default)` on a decoded JSON object. -/
def dictGetD (fields : List (String × Json)) (k : String) (default : Json) : Json :=
  (dictGet fields k).getD default

/-!
## TTL cache

`cachetools.TTLCache` is a third-party dependency (only its instantiation
`LOWERCASE_DENICK_CACHE = TTLCache(maxsize=1024, ttl=60 * 60)` is in the
repository), so the cache is modelled from the spec's contract:
a value set at time `T` is retrievable until `T+ttl` and never after;
`set` overwrites with a fresh expiry; lookup after expiry behaves as absent.
-/

/-- Modelled from the spec: generic TTL cache, a list of
(key, value, expiry-instant) entries with at most one live entry per key. -/
structure TTLCache (V : Type) where
  entries : List (String × V × Int)
  deriving Repr, DecidableEq

/-- The empty cache. -/
def TTLCache.empty (V : Type) : TTLCache V := ⟨[]⟩

/-- Modelled from the spec: `cache[k] = v` at time `now` with per-entry
time-to-live `ttl` — inserts/overwrites with a fresh expiry `now + ttl`. -/
def TTLCache.set (c : TTLCache V) (k : String) (v : V) (now ttl : Int) : TTLCache V :=
  ⟨(k, v, now + ttl) :: c.entries.filter (fun e => !(e.1 == k))⟩

/-- Modelled from the spec: `cache.get(k)` at time `now` — returns the value
if present and unexpired, else behaves as absent.  An entry set at `T` is
live at the lookup times `t` with `t < T + ttl`. -/
def TTLCache.get (c : TTLCache V) (k : String) (now : Int) : Option V :=
  match c.entries.find? (fun e => e.1 == k) with
  | some (_, v, expiry) => if now < expiry then some v else none
  | none => none

/-!
## Denick cache (`antisniper_api.py` lines 26–45)

`LOWERCASE_DENICK_CACHE = TTLCache[str, str | None](maxsize=1024, ttl=60*60)`
caches both successful (`some uuid`) and failed (`none`) denicks, keyed by
the lowercased nick.  A cache miss is signalled by the `Flag.NOT_SET`
sentinel, embedded here as the outer `none` of `Option (Option String)`.
-/

/-- `ttl=60 * 60` from the construction of `LOWERCASE_DENICK_CACHE`. -/
def DENICK_TTL : Int := 60 * 60

/-- Python `str.lower()`, as used on cache keys (ASCII case folding, which
is all the nick alphabet needs). -/
def strLower (s : String) : String := ⟨s.data.map Char.toLower⟩

/-- State of the denick cache: values are `some uuid` (successful denick)
or `none` (cached failure). -/
abbrev DenickCache := TTLCache (Option String)

/-- `set_denick_cache(nick, uuid)`: set the cache entry for the lowercased
nick, and return the uuid. -/
def set_denick_cache (c : DenickCache) (nick : String) (uuid : Option String)
    (now : Int) : Option String × DenickCache :=
  (uuid, c.set (strLower nick) uuid now DENICK_TTL)

/-- `get_denick_cache(nick)`: get the cache entry for the lowercased nick;
the outer `none` is the `Flag.NOT_SET` cache-miss sentinel. -/
def get_denick_cache (c : DenickCache) (nick : String) (now : Int) :
    Option (Option String) :=
  c.get (strLower nick) now

/-!
## Remote call outcomes

`denick` and `get_estimated_winstreaks` interact with the network through
`SESSION.get`; the possible outcomes of one HTTP request are: a
`RequestException` from the transport, or a response carrying a status code
and a body that either fails JSON decoding (`JSONDecodeError`) or decodes
to a JSON object (the payload type both parsers assume).
`requests.Response.__bool__` is `status_code < 400`.
-/

/-- Outcome of one `SESSION.get` call. -/
inductive RemoteOutcome where
  | requestException : RemoteOutcome
  | response (status : Nat) (body : Option (List (String × Json))) : RemoteOutcome
  deriving Repr

/-- `parse_denick_response(response_json)` (`antisniper_api.py` 101–125):
reject falsy `success`, a `None`/non-dict `player`, and a missing or
non-string `uuid`; otherwise return the uuid. -/
def parse_denick_response (response_json : List (String × Json)) : Option String :=
  if !(dictGetD response_json "success" (.bool false)).truthy then
    none
  else
    match dictGetD response_json "player" (.str "INVALIDTYPE") with
    | .null => none
    | .obj playerdata =>
      match dictGet playerdata "uuid" with
      | some (.str uuid) => some uuid
      | _ => none
    | _ => none

/-- Result of one `denick` call: the returned value, the cache afterwards,
and whether a remote request was issued. -/
structure DenickRun where
  result : Option String
  cache : DenickCache
  madeCall : Bool
  deriving Repr, DecidableEq

/-- `denick(nick, key_holder)` (`antisniper_api.py` 58–98): return the
cached uuid when the cache hit is neither `NOT_SET` nor a failure;
otherwise issue the remote request and cache the outcome (`None` on
connection error, 404, non-ok status or JSON decode failure, the parsed
result otherwise). -/
def denick (nick : String) (c : DenickCache) (now : Int)
    (remote : RemoteOutcome) : DenickRun :=
  match get_denick_cache c nick now with
  | some (some uuid) => ⟨some uuid, c, false⟩
  | _ =>
    match remote with
    | .requestException =>
      let (r, c') := set_denick_cache c nick none now
      ⟨r, c', true⟩
    | .response status body =>
      if status = 404 then
        let (r, c') := set_denick_cache c nick none now
        ⟨r, c', true⟩
      else if !(decide (status < 400)) then
        let (r, c') := set_denick_cache c nick none now
        ⟨r, c', true⟩
      else
        match body with
        | none =>
          let (r, c') := set_denick_cache c nick none now
          ⟨r, c', true⟩
        | some response_json =>
          let (r, c') := set_denick_cache c nick (parse_denick_response response_json) now
          ⟨r, c', true⟩

/-!
## Winstreak fetch (`antisniper_api.py` lines 128–207)
-/

/-- Per-gamemode estimated winstreaks (`prism.overlay.player.Winstreaks`);
`None` marks a missing estimate. -/
structure Winstreaks where
  overall : Option Int
  solo : Option Int
  doubles : Option Int
  threes : Option Int
  fours : Option Int
  deriving Repr, DecidableEq

/-- `MISSING_WINSTREAKS`: no estimate for any gamemode. -/
def MISSING_WINSTREAKS : Winstreaks := ⟨none, none, none, none, none⟩

/-- Python `isinstance(x, int)` on a decoded JSON value — Python bools are
a subclass of `int`, so they count. -/
def Json.isInstInt : Json → Bool
  | .num _ => true
  | .bool _ => true
  | _ => false

/-- One iteration of the winstreak loop over `DATA_NAMES`: take
`response_json.get(f"{data_name}_winstreak", None)` and degrade any value
that is neither `None` nor an int to `None` (Python bools are ints). -/
def gamemodeWinstreak (response_json : List (String × Json))
    (data_name : String) : Option Int :=
  match dictGet response_json (data_name ++ "_winstreak") with
  | some (.num n) => some n
  | some (.bool b) => some (if b then 1 else 0)
  | _ => none

/-- `parse_estimated_winstreaks_response(response_json)`
(`antisniper_api.py` 163–207): reject falsy `success` and a non-bool
`overall_accurate`; otherwise collect the per-gamemode winstreaks. -/
def parse_estimated_winstreaks_response
    (response_json : List (String × Json)) : Winstreaks × Bool :=
  if !(dictGetD response_json "success" (.bool false)).truthy then
    (MISSING_WINSTREAKS, false)
  else
    match dictGet response_json "overall_accurate" with
    | some (.bool winstreaks_accurate) =>
      (⟨gamemodeWinstreak response_json "overall",
        gamemodeWinstreak response_json "eight_one",
        gamemodeWinstreak response_json "eight_two",
        gamemodeWinstreak response_json "four_three",
        gamemodeWinstreak response_json "four_four"⟩,
        winstreaks_accurate)
    | _ => (MISSING_WINSTREAKS, false)

/-- `get_estimated_winstreaks(uuid, key_holder)` (`antisniper_api.py`
128–160): `(MISSING_WINSTREAKS, False)` on connection error, non-ok status
or JSON decode failure, else the parsed response. -/
def get_estimated_winstreaks (remote : RemoteOutcome) : Winstreaks × Bool :=
  match remote with
  | .requestException => (MISSING_WINSTREAKS, false)
  | .response status body =>
    if !(decide (status < 400)) then (MISSING_WINSTREAKS, false)
    else
      match body with
      | none => (MISSING_WINSTREAKS, false)
      | some response_json => parse_estimated_winstreaks_response response_json

/-!
## Settings (`settings.py`)

`Key`, `KeyDict`, `construct_key` and `Key.to_dict` live in
`prism.overlay.keybinds` (an external collaborator of the settings module),
so they are treated as parameters of the embedding: `from_dict`/`to_dict`
take the conversion they use as an argument.  The `mutex` field holds a
lock object, not data, and `path` is not part of `SettingsDict`.
-/

/-- `NickValue`: value for a key in `known_nicks`. -/
structure NickValue where
  uuid : String
  comment : String
  deriving Repr, DecidableEq

/-- `SettingsDict`: complete dict of settings, with the keybind still in
its dict form `KD`. -/
structure SettingsDict (KD : Type) where
  hypixel_api_key : String
  antisniper_api_key : Option String
  use_antisniper_api : Bool
  known_nicks : List (String × NickValue)
  autodenick_teammates : Bool
  autoselect_logfile : Bool
  show_on_tab : Bool
  show_on_tab_keybind : KD
  check_for_updates : Bool
  hide_dead_players : Bool
  disable_overrideredirect : Bool
  hide_with_alpha : Bool
  alpha_hundredths : Int
  deriving Repr, DecidableEq

/-- `Settings`: the dataclass holding user settings, with the keybind in
its parsed form `K` and the settings `path` (the `mutex` lock is omitted:
it is excluded from comparison in the source as well). -/
structure Settings (K : Type) where
  hypixel_api_key : String
  antisniper_api_key : Option String
  use_antisniper_api : Bool
  known_nicks : List (String × NickValue)
  autodenick_teammates : Bool
  autoselect_logfile : Bool
  show_on_tab : Bool
  show_on_tab_keybind : K
  check_for_updates : Bool
  hide_dead_players : Bool
  disable_overrideredirect : Bool
  hide_with_alpha : Bool
  alpha_hundredths : Int
  path : String
  deriving Repr, DecidableEq

/-- `Settings.from_dict(source, path)` — `construct_key` is the conversion
imported from `prism.overlay.keybinds`. -/
def Settings.from_dict {KD K : Type} (construct_key : KD → K)
    (source : SettingsDict KD) (path : String) : Settings K where
  hypixel_api_key := source.hypixel_api_key
  antisniper_api_key := source.antisniper_api_key
  use_antisniper_api := source.use_antisniper_api
  known_nicks := source.known_nicks
  autodenick_teammates := source.autodenick_teammates
  autoselect_logfile := source.autoselect_logfile
  show_on_tab := source.show_on_tab
  show_on_tab_keybind := construct_key source.show_on_tab_keybind
  check_for_updates := source.check_for_updates
  hide_dead_players := source.hide_dead_players
  disable_overrideredirect := source.disable_overrideredirect
  hide_with_alpha := source.hide_with_alpha
  alpha_hundredths := source.alpha_hundredths
  path := path

/-- `Settings.to_dict()` — `key_to_dict` is `Key.to_dict` from
`prism.overlay.keybinds`. -/
def Settings.to_dict {KD K : Type} (key_to_dict : K → KD)
    (s : Settings K) : SettingsDict KD where
  hypixel_api_key := s.hypixel_api_key
  antisniper_api_key := s.antisniper_api_key
  use_antisniper_api := s.use_antisniper_api
  known_nicks := s.known_nicks
  autodenick_teammates := s.autodenick_teammates
  autoselect_logfile := s.autoselect_logfile
  show_on_tab := s.show_on_tab
  show_on_tab_keybind := key_to_dict s.show_on_tab_keybind
  check_for_updates := s.check_for_updates
  hide_dead_players := s.hide_dead_players
  disable_overrideredirect := s.disable_overrideredirect
  hide_with_alpha := s.hide_with_alpha
  alpha_hundredths := s.alpha_hundredths

/-- `Settings.update_from(new_settings)`: overwrite every settings field
from the dict (state-passing embedding of the in-place mutation); `path`
is untouched. -/
def Settings.update_from {KD K : Type} (construct_key : KD → K)
    (s : Settings K) (new_settings : SettingsDict KD) : Settings K where
  hypixel_api_key := new_settings.hypixel_api_key
  antisniper_api_key := new_settings.antisniper_api_key
  use_antisniper_api := new_settings.use_antisniper_api
  known_nicks := new_settings.known_nicks
  autodenick_teammates := new_settings.autodenick_teammates
  autoselect_logfile := new_settings.autoselect_logfile
  show_on_tab := new_settings.show_on_tab
  show_on_tab_keybind := construct_key new_settings.show_on_tab_keybind
  check_for_updates := new_settings.check_for_updates
  hide_dead_players := new_settings.hide_dead_players
  disable_overrideredirect := new_settings.disable_overrideredirect
  hide_with_alpha := new_settings.hide_with_alpha
  alpha_hundredths := new_settings.alpha_hundredths
  path := s.path

/-!
## Rate limiter

`prism.ratelimiting.RateLimiter` is not under `src/` (only its
instantiation `RateLimiter(limit=100, window=60)` in
`AntiSniperAPIKeyHolder` is), so the limiter is modelled from the spec's
contract (4.1): `acquire()` blocks the calling execution until a slot is
available such that no more than `limit` acquisitions occur in any
trailing `window` duration, then records the acquisition; it only delays
and never fails.
-/

/-- Number of recorded acquisition instants inside the trailing window
`[now - window, now]`. -/
def countWindow (window now : Int) (acqs : List Int) : Nat :=
  acqs.countP (fun s => decide (now - window ≤ s ∧ s ≤ now))

/-- Modelled from the spec: a trace of recorded acquisition instants
(newest first) that the limiter can have produced — each acquisition was
admitted at a time `t` no earlier than every already-recorded acquisition
and with fewer than `limit` recorded acquisitions in `[t - window, t]`. -/
def validTrace (limit : Nat) (window : Int) : List Int → Bool
  | [] => true
  | t :: tr =>
    validTrace limit window tr && tr.all (fun s => decide (s ≤ t)) &&
      decide (countWindow window t tr < limit)

/-- `limit=100, window=60` from `AntiSniperAPIKeyHolder`
(`antisniper_api.py` 19, 48–55). -/
def REQUEST_LIMIT : Nat := 100

/-- The rate-limit window in seconds. -/
def REQUEST_WINDOW : Int := 60

/-!
## Enrichment fetch coalescing

The enrichment orchestrator is not under `src/`; it is modelled from the
spec (4.6): at most one concurrent in-flight fetch per Identity across the
whole process — concurrent fetch requests for the same Identity coalesce
onto the single outstanding request, and all waiters receive the same
result once it completes.
-/

/-- Modelled from the spec: the orchestrator's coalescing state — the
in-flight fetches (Identity with its list of waiting callers) and the
number of remote calls started so far. -/
structure FetchCoalescer where
  inFlight : List (String × List Nat)
  remoteCalls : Nat
  deriving Repr, DecidableEq

/-- No fetch in flight, no remote call made. -/
def FetchCoalescer.empty : FetchCoalescer := ⟨[], 0⟩

/-- Add a waiter to the (first) in-flight entry for `id`. -/
def updateWaiters : List (String × List Nat) → String → Nat →
    List (String × List Nat)
  | [], _, _ => []
  | e :: es, id, c =>
    if e.1 == id then (e.1, c :: e.2) :: es else e :: updateWaiters es id c

/-- Whether a fetch for `id` is currently in flight. -/
def FetchCoalescer.isInFlight (s : FetchCoalescer) (id : String) : Bool :=
  (s.inFlight.find? (fun e => e.1 == id)).isSome

/-- Modelled from the spec: a fetch request for `id` by `caller` joins the
outstanding fetch when one is in flight (no remote call), else starts a
new remote call with `caller` as sole waiter. -/
def FetchCoalescer.request (s : FetchCoalescer) (id : String)
    (caller : Nat) : FetchCoalescer :=
  if s.isInFlight id then
    ⟨updateWaiters s.inFlight id caller, s.remoteCalls⟩
  else
    ⟨(id, [caller]) :: s.inFlight, s.remoteCalls + 1⟩

/-- A burst of fetch requests for the same `id` by `callers`, in order. -/
def FetchCoalescer.requestAll (s : FetchCoalescer) (id : String)
    (callers : List Nat) : FetchCoalescer :=
  callers.foldl (fun st c => st.request id c) s

/-- Modelled from the spec: completion of the in-flight fetch for `id`
with `outcome` removes the entry and delivers the same outcome to every
waiter. -/
def FetchCoalescer.complete {α : Type} (s : FetchCoalescer) (id : String)
    (outcome : α) : FetchCoalescer × List (Nat × α) :=
  match s.inFlight.find? (fun e => e.1 == id) with
  | some (_, waiters) =>
    (⟨s.inFlight.filter (fun e => !(e.1 == id)), s.remoteCalls⟩,
      waiters.map (fun c => (c, outcome)))
  | none => (s, [])

/-- Number of in-flight fetches for Identity `i`. -/
def countInFlight (s : FetchCoalescer) (i : String) : Nat :=
  (s.inFlight.filter (fun e => e.1 == i)).length

/-- An observable orchestrator event: a fetch request, or the completion
of an in-flight fetch. -/
inductive FetchEvent where
  | req (id : String) (caller : Nat) : FetchEvent
  | compl (id : String) : FetchEvent
  deriving Repr, DecidableEq

/-- Apply one event to the coalescing state. -/
def applyEvent (s : FetchCoalescer) : FetchEvent → FetchCoalescer
  | .req id caller => s.request id caller
  | .compl id => (s.complete id ()).1

/-- Run a sequence of events from a starting state. -/
def runEvents (s : FetchCoalescer) (evs : List FetchEvent) : FetchCoalescer :=
  evs.foldl applyEvent s

/-!
## Controller playerdata error taxonomy

`prism.overlay.controller.RealOverlayController.get_playerdata` is not
under `src/` (only its test,
`test_real_overlay_controller_get_playerdata`, is).  It is modelled from
the spec's error taxonomy and that test: the underlying hypixel fetch
either returns playerdata or raises one of
`HypixelPlayerNotFoundError`, `HypixelAPIError`, `HypixelAPIKeyError`,
`HypixelAPIThrottleError`; the controller catches all of them.
-/

/-- Outcome of the underlying `get_playerdata` hypixel fetch. -/
inductive PlayerDataOutcome (α : Type) where
  | ok (playerdata : α) : PlayerDataOutcome α
  | playerNotFoundError : PlayerDataOutcome α
  | apiError : PlayerDataOutcome α
  | apiKeyError : PlayerDataOutcome α
  | apiThrottleError : PlayerDataOutcome α
  deriving Repr, DecidableEq

/-- What the controller hands back for one uuid: the playerdata, the
terminal "not found" record (`None`), or the non-terminal
`ERROR_DURING_PROCESSING` placeholder. -/
inductive PlayerDataResult (α : Type) where
  | found (playerdata : α) : PlayerDataResult α
  | notFound : PlayerDataResult α
  | errorDuringProcessing : PlayerDataResult α
  deriving Repr, DecidableEq

/-- Modelled from the spec: `RealOverlayController.get_playerdata`
(missing from `src/`; behaviour fixed by
`test_real_overlay_controller_get_playerdata`) — returns
`(dataReceivedAtMs, playerdata)`, mapping a not-found error to the
terminal `None`, every other API error (throttle, invalid key, generic)
to `ERROR_DURING_PROCESSING`, and a success to its data; no exception
propagates. -/
def controller_get_playerdata {α : Type} (nowMs : Int)
    (outcome : PlayerDataOutcome α) : Int × PlayerDataResult α :=
  (nowMs,
    match outcome with
    | .ok d => .found d
    | .playerNotFoundError => .notFound
    | .apiError => .errorDuringProcessing
    | .apiKeyError => .errorDuringProcessing
    | .apiThrottleError => .errorDuringProcessing)

/-!
## Log event classifier

`prism.overlay.parsing.parse_logline` is not under `src/` (only its
caller `search_logfile_for_key` is).  It is modelled from the spec (4.4):
a pure, stateless, total mapping from one log line to zero-or-one typed
Event, recognizing own-identity announcements, lobby join/leave, party
bulk-list/add/remove, world transitions and API-key announcements, with
unrecognized lines yielding `None`.  String scanning is done on character
lists so that every operation is structural.
-/

/-- The closed set of typed log events (spec 4.4). -/
inductive Event where
  | ownIdentity (username : String) : Event
  | lobbyJoin (username : String) : Event
  | lobbyLeave (username : String) : Event
  | partyList (usernames : List String) : Event
  | partyAdd (username : String) : Event
  | partyRemove (username : String) : Event
  | worldTransition : Event
  | newAPIKey (key : String) : Event
  deriving Repr, DecidableEq

/-- Drop `p` from the front of `s`, or fail. -/
def dropPrefixChars : List Char → List Char → Option (List Char)
  | [], s => some s
  | _ :: _, [] => none
  | c :: p, d :: s => if c = d then dropPrefixChars p s else none

/-- Split `s` at the first occurrence of `marker`, returning the parts
before and after it. -/
def breakOnChars (marker : List Char) : List Char →
    Option (List Char × List Char)
  | [] => match dropPrefixChars marker [] with
    | some rest => some ([], rest)
    | none => none
  | c :: s =>
    match dropPrefixChars marker (c :: s) with
    | some rest => some ([], rest)
    | none =>
      match breakOnChars marker s with
      | some (a, b) => some (c :: a, b)
      | none => none

/-- Split `s` on every occurrence of `marker` (fuelled by the length of
`s`, which bounds the number of occurrences). -/
def splitOnChars (marker : List Char) : Nat → List Char → List (List Char)
  | 0, s => [s]
  | n + 1, s =>
    match breakOnChars marker s with
    | some (a, b) => a :: splitOnChars marker n b
    | none => [s]

/-- Modelled from the spec: `parse_logline` — classify one raw log line
into at most one typed Event, by first pattern match:
own-identity (`Setting user:`), and on chat lines the API-key
announcement, lobby join/leave, party bulk-list/add/remove, and the
world transition (`Sending you to`); anything else is `None`. -/
def parse_logline (line : String) : Option Event :=
  match breakOnChars "Setting user: ".data line.data with
  | some (_, rest) => some (.ownIdentity ⟨rest⟩)
  | none =>
    match breakOnChars "[CHAT] ".data line.data with
    | none => none
    | some (_, msg) =>
      match dropPrefixChars "Your new API key is ".data msg with
      | some key => some (.newAPIKey ⟨key⟩)
      | none =>
        match breakOnChars " has joined (".data msg with
        | some (name, _) => some (.lobbyJoin ⟨name⟩)
        | none =>
          match breakOnChars " has quit!".data msg with
          | some (name, _) => some (.lobbyLeave ⟨name⟩)
          | none =>
            match dropPrefixChars "ONLINE: ".data msg with
            | some names =>
              some (.partyList
                ((splitOnChars ", ".data names.length names).map
                  fun cs => (⟨cs⟩ : String)))
            | none =>
              match breakOnChars " joined the party".data msg with
              | some (name, _) => some (.partyAdd ⟨name⟩)
              | none =>
                match breakOnChars " has left the party".data msg with
                | some (name, _) => some (.partyRemove ⟨name⟩)
                | none =>
                  match dropPrefixChars "Sending you to ".data msg with
                  | some _ => some .worldTransition
                  | none => none

/-- The classifier with the ambient shared state made explicit: it reads
the line, touches nothing. -/
def classifyWithState {σ : Type} (line : String) (s : σ) :
    Option Event × σ :=
  (parse_logline line, s)

end Prism

namespace Prism

/-- C3: TTL cache expiry contract — after `set(k, v)` at time `T` with
time-to-live `ttl`, `get(k)` is a hit returning `v` at every lookup time
`t` with `T ≤ t < T + ttl`, and behaves as absent at every `t ≥ T + ttl`;
an expired entry is never returned. -/
theorem ttl_cache_expiry_contract {V : Type} (c : TTLCache V) (k : String)
    (v : V) (T t ttl : Int) (hT : T ≤ t) :
    (t < T + ttl → (c.set k v T ttl).get k t = some v) ∧
    (T + ttl ≤ t → (c.set k v T ttl).get k t = none) := by
  constructor <;> intro h <;>
    simp [TTLCache.set, TTLCache.get, List.find?_cons] <;> omega

/-- C3 witness: instantiation of the expiry contract at `T = 5`,
`ttl = 10`, lookup times `t = 14` (hit) and `t = 15` (miss). -/
theorem ttl_cache_expiry_contract_witness :
    ((TTLCache.empty Nat).set "k" 7 5 10).get "k" 14 = some 7 ∧
    ((TTLCache.empty Nat).set "k" 7 5 10).get "k" 15 = none :=
  ⟨(ttl_cache_expiry_contract (TTLCache.empty Nat) "k" 7 5 14 10 (by decide)).1
      (by decide),
    (ttl_cache_expiry_contract (TTLCache.empty Nat) "k" 7 5 15 10 (by decide)).2
      (by decide)⟩

/-- C10: the denick cache is keyed by the lowercased nick — after
`set_denick_cache(n, u)` at time `t`, `get_denick_cache(m)` within the TTL
returns `u` for every `m` with `m.lower() == n.lower()`; `set_denick_cache`
returns `u`; and a `get_denick_cache` on a nick whose lowercase form has no
entry returns the `NOT_SET` sentinel (the outer `none`). -/
theorem denick_cache_case_insensitive (c : DenickCache) (n m : String)
    (u : Option String) (t t' : Int) (hcase : (strLower m) = (strLower n))
    (h1 : t ≤ t') (h2 : t' < t + DENICK_TTL) :
    get_denick_cache (set_denick_cache c n u t).2 m t' = some u ∧
    (set_denick_cache c n u t).1 = u ∧
    (∀ c' : DenickCache, ∀ nick : String, ∀ s : Int,
      (∀ e ∈ c'.entries, e.1 ≠ (strLower nick)) →
        get_denick_cache c' nick s = none) := by
  refine ⟨?_, rfl, ?_⟩
  · simp [set_denick_cache, get_denick_cache, TTLCache.set, TTLCache.get,
      List.find?_cons, hcase]
    omega
  · intro c' nick s hnone
    have hfind : c'.entries.find? (fun e => e.1 == (strLower nick)) = none := by
      rw [List.find?_eq_none]
      intro e he
      simpa using hnone e he
    simp [get_denick_cache, TTLCache.get, hfind]

/-- C10 witness: setting `"AbC"` and reading back `"aBc"` hits the same
entry; the setter returns the value; an unset nick reads as `NOT_SET`. -/
theorem denick_cache_case_insensitive_witness :
    get_denick_cache
        (set_denick_cache (TTLCache.empty (Option String)) "AbC" (some "u") 0).2
        "aBc" 10 = some (some "u") ∧
    (set_denick_cache (TTLCache.empty (Option String)) "AbC" (some "u") 0).1
      = some "u" ∧
    get_denick_cache (TTLCache.empty (Option String)) "aBc" 3 = none := by
  obtain ⟨hget, hret, hmiss⟩ :=
    denick_cache_case_insensitive (TTLCache.empty (Option String)) "AbC" "aBc"
      (some "u") 0 10 (by decide) (by decide) (by decide)
  exact ⟨hget, hret, hmiss (TTLCache.empty (Option String)) "aBc" 3 (by simp [TTLCache.empty])⟩

/-- C1 counterexample: resolving the unresolvable alias `"Sneaky"` twice
within the TTL window issues TWO remote calls, not one — after the first
failure is cached (`get_denick_cache … = some none`, unexpired at `t = 10`),
the second `denick` call still sets `madeCall = true`, because the code only
short-circuits on a cached success (`cache_hit is not None`). -/
theorem denick_negative_cache_counterexample :
    (denick "Sneaky" (TTLCache.empty (Option String)) 0
        (.response 404 none)).madeCall = true ∧
    get_denick_cache
        (denick "Sneaky" (TTLCache.empty (Option String)) 0
          (.response 404 none)).cache "Sneaky" 10 = some none ∧
    (denick "Sneaky"
        (denick "Sneaky" (TTLCache.empty (Option String)) 0
          (.response 404 none)).cache 10
        (.response 404 none)).madeCall = true := by
  decide

/-- C1 (amended): a cached successful resolution within the TTL window is
returned directly with no remote call, but negative caching does not
suppress lookups — when the cache entry for the nick is a cached failure
(or absent), every `denick` call issues a remote call. -/
theorem denick_cache_short_circuit (nick : String) (c : DenickCache)
    (now : Int) (remote : RemoteOutcome) (u : String) :
    (get_denick_cache c nick now = some (some u) →
      denick nick c now remote = ⟨some u, c, false⟩) ∧
    (get_denick_cache c nick now = some none →
      (denick nick c now remote).madeCall = true) ∧
    (get_denick_cache c nick now = none →
      (denick nick c now remote).madeCall = true) := by
  refine ⟨?_, ?_, ?_⟩ <;> intro h <;> unfold denick <;> rw [h]
  all_goals
    cases remote with
    | requestException => rfl
    | response status body =>
      cases body <;> dsimp only <;> split <;>
        first
        | rfl
        | (split <;> rfl)

/-- C1 amended-claim witness: a cache holding a successful entry is
returned without a remote call; a cache holding a failure entry still
triggers a remote call. -/
theorem denick_cache_short_circuit_witness :
    denick "Benny" (set_denick_cache (TTLCache.empty (Option String))
        "Benny" (some "u1") 0).2 5 .requestException
      = ⟨some "u1", (set_denick_cache (TTLCache.empty (Option String))
        "Benny" (some "u1") 0).2, false⟩ ∧
    (denick "Sneaky" (set_denick_cache (TTLCache.empty (Option String))
        "Sneaky" none 0).2 5 .requestException).madeCall = true := by
  refine ⟨(denick_cache_short_circuit "Benny" _ 5 .requestException "u1").1 (by decide),
    (denick_cache_short_circuit "Sneaky" _ 5 .requestException "?").2.1 (by decide)⟩

/-- C4 counterexample: the code checks `success` by Python truthiness, not
by equality with `true` — on the error payload
`{"success": 2, "player": {"uuid": "u"}}` (success is truthy but not
`true`) `denick` returns the uuid `"u"`, not `None` as the claim requires
for a payload with `success != true`. -/
theorem denick_error_taxonomy_counterexample :
    (denick "player1" (TTLCache.empty (Option String)) 0
        (.response 200 (some [("success", Json.num 2),
          ("player", Json.obj [("uuid", Json.str "u")])]))).result = some "u" ∧
    (denick "player1" (TTLCache.empty (Option String)) 0
        (.response 200 (some [("success", Json.num 2),
          ("player", Json.obj [("uuid", Json.str "u")])]))).result ≠ none := by
  decide

/-- C4 (amended): whenever the cache holds no successful entry for the
nick, `denick` never raises and caches every failure: a connection error,
HTTP 404, any other status `≥ 400`, or an unparseable JSON body returns
`None` and caches `None` for the nick; an ok response returns and caches
`parse_denick_response`, which yields `None` exactly on a falsy `success`
field, a `null` or non-dict `player`, or a missing or non-string `uuid`,
and yields the uuid string on a well-formed success payload. -/
theorem denick_error_taxonomy (nick : String) (c : DenickCache) (now : Int)
    (h : ∀ u : String, get_denick_cache c nick now ≠ some (some u)) :
    (denick nick c now .requestException
      = ⟨none, (set_denick_cache c nick none now).2, true⟩) ∧
    (∀ status : Nat, ∀ body, status = 404 ∨ 400 ≤ status →
      denick nick c now (.response status body)
        = ⟨none, (set_denick_cache c nick none now).2, true⟩) ∧
    (∀ status : Nat, status < 400 →
      denick nick c now (.response status none)
        = ⟨none, (set_denick_cache c nick none now).2, true⟩) ∧
    (∀ status : Nat, ∀ fs, status ≠ 404 → status < 400 →
      denick nick c now (.response status (some fs))
        = ⟨parse_denick_response fs,
            (set_denick_cache c nick (parse_denick_response fs) now).2, true⟩) ∧
    (∀ fs, (dictGetD fs "success" (.bool false)).truthy = false →
      parse_denick_response fs = none) ∧
    (∀ fs, dictGetD fs "player" (.str "INVALIDTYPE") = .null →
      parse_denick_response fs = none) ∧
    (∀ fs, dictGetD fs "player" (.str "INVALIDTYPE") ≠ .null →
      (∀ pd, dictGetD fs "player" (.str "INVALIDTYPE") ≠ .obj pd) →
      parse_denick_response fs = none) ∧
    (∀ fs pd, dictGetD fs "player" (.str "INVALIDTYPE") = .obj pd →
      (∀ s : String, dictGet pd "uuid" ≠ some (.str s)) →
      parse_denick_response fs = none) ∧
    (∀ fs pd u, (dictGetD fs "success" (.bool false)).truthy = true →
      dictGetD fs "player" (.str "INVALIDTYPE") = .obj pd →
      dictGet pd "uuid" = some (.str u) →
      parse_denick_response fs = some u) := by
  have hcases : get_denick_cache c nick now = none ∨
      get_denick_cache c nick now = some none := by
    rcases hv : get_denick_cache c nick now with _ | v
    · exact .inl rfl
    · rcases v with _ | u
      · exact .inr rfl
      · exact absurd hv (h u)
  have hstep : ∀ r : RemoteOutcome, denick nick c now r =
      match r with
      | .requestException => ⟨none, (set_denick_cache c nick none now).2, true⟩
      | .response status body =>
        if status = 404 then
          ⟨none, (set_denick_cache c nick none now).2, true⟩
        else if !(decide (status < 400)) then
          ⟨none, (set_denick_cache c nick none now).2, true⟩
        else
          match body with
          | none => ⟨none, (set_denick_cache c nick none now).2, true⟩
          | some fs =>
            ⟨parse_denick_response fs,
              (set_denick_cache c nick (parse_denick_response fs) now).2, true⟩ := by
    intro r
    unfold denick
    rcases hcases with hv | hv <;> rw [hv] <;> rfl
  refine ⟨hstep .requestException, ?_, ?_, ?_, ?_, ?_, ?_, ?_, ?_⟩
  · intro status body hst
    rw [hstep]
    by_cases h404 : status = 404
    · simp [h404]
    · have hge : 400 ≤ status := hst.resolve_left h404
      have hnl : ¬status < 400 := by omega
      simp [h404, hnl]
  · intro status hlt
    rw [hstep]
    by_cases h404 : status = 404 <;> simp [h404, hlt]
  · intro status fs h404 hlt
    rw [hstep]
    simp [h404, hlt]
  · intro fs hs
    simp [parse_denick_response, hs]
  · intro fs hp
    simp only [parse_denick_response, hp]
    split <;> rfl
  · intro fs h1 h2
    simp only [parse_denick_response]
    rcases hp : dictGetD fs "player" (.str "INVALIDTYPE") with _ | b | n | s | es | pd
    · exact absurd hp h1
    · split <;> rfl
    · split <;> rfl
    · split <;> rfl
    · split <;> rfl
    · exact absurd hp (h2 pd)
  · intro fs pd hp hu
    simp only [parse_denick_response, hp]
    rcases hv : dictGet pd "uuid" with _ | j
    · split <;> rfl
    · rcases j with _ | b | n | s | es | flds
      · split <;> rfl
      · split <;> rfl
      · split <;> rfl
      · exact absurd hv (hu s)
      · split <;> rfl
      · split <;> rfl
  · intro fs pd u hs hp hu
    simp [parse_denick_response, hs, hp, hu]

/-- C4 amended-claim witness: on an empty cache, a connection error caches
and returns `None`; a well-formed success payload parses to its uuid. -/
theorem denick_error_taxonomy_witness :
    denick "N" (TTLCache.empty (Option String)) 0 .requestException
      = ⟨none, (set_denick_cache (TTLCache.empty (Option String)) "N" none 0).2, true⟩ ∧
    parse_denick_response [("success", Json.bool true),
        ("player", Json.obj [("uuid", Json.str "u")])] = some "u" := by
  obtain ⟨h1, _, _, _, _, _, _, _, h9⟩ :=
    denick_error_taxonomy "N" (TTLCache.empty (Option String)) 0
      (by intro u hu; simp [get_denick_cache, TTLCache.get, TTLCache.empty] at hu)
  exact ⟨h1, h9 [("success", Json.bool true),
    ("player", Json.obj [("uuid", Json.str "u")])] [("uuid", Json.str "u")] "u"
    rfl rfl rfl⟩

/-- C6 counterexample: the code checks `success` by Python truthiness, not
by equality with `true` — on the error payload
`{"success": 2, "overall_accurate": true}` (success truthy but not `true`)
`get_estimated_winstreaks` returns accuracy flag `true`, not the claimed
`(MISSING_WINSTREAKS, False)`. -/
theorem winstreaks_error_taxonomy_counterexample :
    get_estimated_winstreaks (.response 200 (some [("success", Json.num 2),
        ("overall_accurate", Json.bool true)]))
      = (MISSING_WINSTREAKS, true) ∧
    get_estimated_winstreaks (.response 200 (some [("success", Json.num 2),
        ("overall_accurate", Json.bool true)]))
      ≠ (MISSING_WINSTREAKS, false) := by
  decide

/-- C6 (amended): `get_estimated_winstreaks` never raises, and degrades to
the `(MISSING_WINSTREAKS, False)` placeholder on a connection error, a
non-ok HTTP status, an unparseable JSON body, a falsy `success` field, or
a missing/non-boolean `overall_accurate`; on a well-formed success payload
it returns the per-gamemode winstreaks, where each gamemode value that is
neither an int (Python bools included) nor absent degrades to `None` for
that gamemode only. -/
theorem winstreaks_error_taxonomy :
    (get_estimated_winstreaks .requestException = (MISSING_WINSTREAKS, false)) ∧
    (∀ status : Nat, ∀ body, 400 ≤ status →
      get_estimated_winstreaks (.response status body)
        = (MISSING_WINSTREAKS, false)) ∧
    (∀ status : Nat, status < 400 →
      get_estimated_winstreaks (.response status none)
        = (MISSING_WINSTREAKS, false)) ∧
    (∀ status : Nat, ∀ fs, status < 400 →
      get_estimated_winstreaks (.response status (some fs))
        = parse_estimated_winstreaks_response fs) ∧
    (∀ fs, (dictGetD fs "success" (.bool false)).truthy = false →
      parse_estimated_winstreaks_response fs = (MISSING_WINSTREAKS, false)) ∧
    (∀ fs, (∀ b : Bool, dictGet fs "overall_accurate" ≠ some (.bool b)) →
      parse_estimated_winstreaks_response fs = (MISSING_WINSTREAKS, false)) ∧
    (∀ fs, ∀ b : Bool, (dictGetD fs "success" (.bool false)).truthy = true →
      dictGet fs "overall_accurate" = some (.bool b) →
      parse_estimated_winstreaks_response fs =
        (⟨gamemodeWinstreak fs "overall", gamemodeWinstreak fs "eight_one",
          gamemodeWinstreak fs "eight_two", gamemodeWinstreak fs "four_three",
          gamemodeWinstreak fs "four_four"⟩, b)) ∧
    (∀ fs name, dictGet fs (name ++ "_winstreak") = none →
      gamemodeWinstreak fs name = none) ∧
    (∀ fs name j, dictGet fs (name ++ "_winstreak") = some j →
      j.isInstInt = false → gamemodeWinstreak fs name = none) ∧
    (∀ fs name n, dictGet fs (name ++ "_winstreak") = some (.num n) →
      gamemodeWinstreak fs name = some n) := by
  refine ⟨rfl, ?_, ?_, ?_, ?_, ?_, ?_, ?_, ?_, ?_⟩
  · intro status body hge
    have hnl : ¬status < 400 := by omega
    cases body <;> simp [get_estimated_winstreaks, hnl]
  · intro status hlt
    simp [get_estimated_winstreaks, hlt]
  · intro status fs hlt
    simp [get_estimated_winstreaks, hlt]
  · intro fs hs
    simp [parse_estimated_winstreaks_response, hs]
  · intro fs hacc
    simp only [parse_estimated_winstreaks_response]
    rcases ha : dictGet fs "overall_accurate" with _ | j
    · split <;> rfl
    · rcases j with _ | b | n | s | es | flds
      · split <;> rfl
      · exact absurd ha (hacc b)
      · split <;> rfl
      · split <;> rfl
      · split <;> rfl
      · split <;> rfl
  · intro fs b hs ha
    simp [parse_estimated_winstreaks_response, hs, ha]
  · intro fs name hget
    simp [gamemodeWinstreak, hget]
  · intro fs name j hget hint
    simp only [gamemodeWinstreak, hget]
    rcases j with _ | b | n | s | es | flds <;> first
      | rfl
      | simp [Json.isInstInt] at hint
  · intro fs name n hget
    simp [gamemodeWinstreak, hget]

/-- C6 amended-claim witness: on a success payload where the doubles
winstreak is a string, only that gamemode degrades to `None`; the
connection-error case returns the placeholder. -/
theorem winstreaks_error_taxonomy_witness :
    get_estimated_winstreaks .requestException = (MISSING_WINSTREAKS, false) ∧
    parse_estimated_winstreaks_response
        [("success", Json.bool true), ("overall_accurate", Json.bool false),
         ("overall_winstreak", Json.num 12), ("eight_one_winstreak", Json.num 3),
         ("eight_two_winstreak", Json.str "bad"), ("four_three_winstreak", Json.null),
         ("four_four_winstreak", Json.num 0)]
      = (⟨some 12, some 3, none, none, some 0⟩, false) := by
  obtain ⟨h1, _, _, _, _, _, h7, _, _, _⟩ := winstreaks_error_taxonomy
  refine ⟨h1, ?_⟩
  rw [h7 [("success", Json.bool true), ("overall_accurate", Json.bool false),
      ("overall_winstreak", Json.num 12), ("eight_one_winstreak", Json.num 3),
      ("eight_two_winstreak", Json.str "bad"), ("four_three_winstreak", Json.null),
      ("four_four_winstreak", Json.num 0)] false rfl rfl]
  rfl

/-- C9: settings serialization round-trip — provided the keybind
conversions are mutually inverse on the dict's keybind,
`Settings.from_dict(d, p).to_dict()` returns `d` field for field, and so
does `update_from(d)` followed by `to_dict()` from any prior settings. -/
theorem settings_roundtrip {KD K : Type} (construct_key : KD → K)
    (key_to_dict : K → KD) (d : SettingsDict KD) (p : String)
    (s : Settings K)
    (hinv : key_to_dict (construct_key d.show_on_tab_keybind)
      = d.show_on_tab_keybind) :
    (Settings.from_dict construct_key d p).to_dict key_to_dict = d ∧
    (s.update_from construct_key d).to_dict key_to_dict = d := by
  cases d
  refine ⟨?_, ?_⟩ <;>
    simp_all [Settings.from_dict, Settings.to_dict, Settings.update_from]

/-- C9 witness: round-trip at a concrete settings dict, with the identity
keybind conversions (mutually inverse). -/
theorem settings_roundtrip_witness :
    (Settings.from_dict (fun kd : String => kd)
        ⟨"hkey", some "akey", true, [("AmazingNick", ⟨"uuid1", "ign"⟩)],
          true, false, true, "tab", true, true, false, false, 80⟩
        "conf.toml").to_dict (fun k : String => k)
      = ⟨"hkey", some "akey", true, [("AmazingNick", ⟨"uuid1", "ign"⟩)],
          true, false, true, "tab", true, true, false, false, 80⟩ ∧
    ((Settings.from_dict (fun kd : String => kd)
        ⟨"old", none, false, [], false, false, false, "none", false, false,
          false, false, 30⟩ "conf.toml").update_from (fun kd : String => kd)
        ⟨"hkey", some "akey", true, [("AmazingNick", ⟨"uuid1", "ign"⟩)],
          true, false, true, "tab", true, true, false, false, 80⟩).to_dict
        (fun k : String => k)
      = ⟨"hkey", some "akey", true, [("AmazingNick", ⟨"uuid1", "ign"⟩)],
          true, false, true, "tab", true, true, false, false, 80⟩ :=
  settings_roundtrip (fun kd : String => kd) (fun k : String => k)
    ⟨"hkey", some "akey", true, [("AmazingNick", ⟨"uuid1", "ign"⟩)],
      true, false, true, "tab", true, true, false, false, 80⟩
    "conf.toml"
    (Settings.from_dict (fun kd : String => kd)
      ⟨"old", none, false, [], false, false, false, "none", false, false,
        false, false, 30⟩ "conf.toml")
    rfl

/-- C2: rate-limiter window bound — every trace of acquisitions the
limiter admits has at most `limit` acquisitions in every trailing window
`[now - window, now]`; and `acquire()` never fails: any valid trace can
always be extended by a further admissible acquisition (callers are only
delayed). -/
theorem rate_limiter_window_bound (limit : Nat) (window : Int)
    (tr : List Int) (h : validTrace limit window tr = true) :
    (∀ now : Int, countWindow window now tr ≤ limit) ∧
    (0 < limit → 0 ≤ window →
      ∃ t : Int, validTrace limit window (t :: tr) = true) := by
  have main : ∀ l : List Int, validTrace limit window l = true →
      ∀ now : Int, countWindow window now l ≤ limit := by
    intro l
    induction l with
    | nil => intro _ now; simp [countWindow]
    | cons t l ih =>
      intro hv now
      simp only [validTrace, Bool.and_eq_true, List.all_eq_true,
        decide_eq_true_eq] at hv
      obtain ⟨⟨hvl, hle⟩, hcnt⟩ := hv
      by_cases hin : now - window ≤ t ∧ t ≤ now
      · have hmono : countWindow window now l ≤ countWindow window t l := by
          apply List.countP_mono_left
          intro s hs hps
          simp only [decide_eq_true_eq] at hps ⊢
          have hst := hle s hs
          omega
        have hcons : countWindow window now (t :: l)
            = countWindow window now l + 1 := by
          simp only [countWindow, List.countP_cons]
          have hd : decide (now - window ≤ t ∧ t ≤ now) = true := by
            simp only [decide_eq_true_eq]; omega
          rw [hd]
          simp
        omega
      · have hcons : countWindow window now (t :: l)
            = countWindow window now l := by
          simp only [countWindow, List.countP_cons]
          have hd : decide (now - window ≤ t ∧ t ≤ now) = false := by
            simp only [decide_eq_false_iff_not]; omega
          rw [hd]
          simp
        rw [hcons]
        exact ih hvl now
  refine ⟨main tr h, ?_⟩
  intro hlim hwin
  have hM : ∀ s ∈ tr, s ≤ tr.foldr max 0 := by
    induction tr with
    | nil => simp
    | cons a l ih =>
      intro s hs
      rcases List.mem_cons.mp hs with hsa | hsl
      · simp [hsa, List.foldr_cons, le_max_iff]
      · exact le_trans (ih (by
          simp only [validTrace, Bool.and_eq_true] at h
          exact h.1.1) s hsl) (by simp [List.foldr_cons, le_max_iff])
  refine ⟨tr.foldr max 0 + window + 1, ?_⟩
  simp only [validTrace, Bool.and_eq_true, List.all_eq_true,
    decide_eq_true_eq]
  refine ⟨⟨h, ?_⟩, ?_⟩
  · intro s hs
    have := hM s hs
    omega
  · have hzero : countWindow window (tr.foldr max 0 + window + 1) tr = 0 := by
      simp only [countWindow, List.countP_eq_zero, decide_eq_true_eq]
      intro s hs
      have := hM s hs
      omega
    omega

/-- Helper: adding a waiter to the in-flight entry for `id` updates only
that entry's waiter list. -/
theorem find?_updateWaiters (l : List (String × List Nat)) (id : String)
    (c : Nat) (ws : List Nat)
    (h : l.find? (fun e => e.1 == id) = some (id, ws)) :
    (updateWaiters l id c).find? (fun e => e.1 == id) = some (id, c :: ws) := by
  induction l with
  | nil => simp at h
  | cons e es ih =>
    simp only [List.find?] at h
    by_cases he : (e.1 == id) = true
    · rw [he] at h
      have h2 : some e = some (id, ws) := h
      injection h2 with h'
      subst h'
      simp [updateWaiters, he, List.find?]
    · have he' : (e.1 == id) = false := by simpa using he
      rw [he'] at h
      have h2 : es.find? (fun e => e.1 == id) = some (id, ws) := h
      have hrec := ih h2
      simp only [updateWaiters, he', Bool.false_eq_true, if_false]
      simp only [List.find?, he']
      exact hrec

/-- Helper: adding a waiter never changes which identities are in flight
nor how many entries any identity has. -/
theorem filter_length_updateWaiters (l : List (String × List Nat))
    (id : String) (c : Nat) (i : String) :
    ((updateWaiters l id c).filter (fun e => e.1 == i)).length
      = (l.filter (fun e => e.1 == i)).length := by
  induction l with
  | nil => rfl
  | cons e es ih =>
    by_cases he : (e.1 == id) = true <;>
      by_cases hi : (e.1 == i) = true <;>
        simp [updateWaiters, he, List.filter_cons, hi, ih]

/-- Helper: a burst of requests for an in-flight identity makes no remote
call, keeps the identity in flight, accumulates all the callers as
waiters, and leaves every identity's in-flight count unchanged. -/
theorem requestAll_spec (id : String) (callers : List Nat) :
    ∀ s : FetchCoalescer, ∀ ws : List Nat,
    s.inFlight.find? (fun e => e.1 == id) = some (id, ws) →
    ∃ ws' : List Nat,
      (s.requestAll id callers).inFlight.find? (fun e => e.1 == id)
        = some (id, ws') ∧
      (∀ x ∈ ws, x ∈ ws') ∧ (∀ c ∈ callers, c ∈ ws') ∧
      (s.requestAll id callers).remoteCalls = s.remoteCalls ∧
      (∀ i, countInFlight (s.requestAll id callers) i = countInFlight s i) := by
  induction callers with
  | nil =>
    intro s ws h
    exact ⟨ws, h, fun x hx => hx, by simp, rfl, fun _ => rfl⟩
  | cons c cs ih =>
    intro s ws h
    have hin : s.isInFlight id = true := by
      simp [FetchCoalescer.isInFlight, h]
    have hstep : s.request id c
        = ⟨updateWaiters s.inFlight id c, s.remoteCalls⟩ := by
      simp [FetchCoalescer.request, hin]
    have hall : s.requestAll id (c :: cs)
        = (s.request id c).requestAll id cs := rfl
    have hfind := find?_updateWaiters s.inFlight id c ws h
    obtain ⟨ws', h1, h2, h3, h4, h5⟩ :=
      ih ⟨updateWaiters s.inFlight id c, s.remoteCalls⟩ (c :: ws) hfind
    rw [hall, hstep]
    refine ⟨ws', h1, fun x hx => h2 x (List.mem_cons_of_mem _ hx), ?_, h4, ?_⟩
    · intro c' hc'
      rcases List.mem_cons.mp hc' with hceq | hmem
      · exact hceq ▸ h2 c (List.mem_cons_self _ _)
      · exact h3 c' hmem
    · intro i
      rw [h5 i]
      simp [countInFlight, filter_length_updateWaiters]

/-- Helper: every reachable coalescing state has at most one in-flight
fetch per identity. -/
theorem applyEvent_at_most_one (s : FetchCoalescer) (ev : FetchEvent)
    (h : ∀ i, countInFlight s i ≤ 1) :
    ∀ i, countInFlight (applyEvent s ev) i ≤ 1 := by
  cases ev with
  | req id c =>
    intro i
    by_cases hin : s.isInFlight id = true
    · have : countInFlight (s.request id c) i = countInFlight s i := by
        simp [FetchCoalescer.request, hin, countInFlight,
          filter_length_updateWaiters]
      simpa [applyEvent, this] using h i
    · have hnone : s.inFlight.find? (fun e => e.1 == id) = none := by
        cases hf : s.inFlight.find? (fun e => e.1 == id) with
        | none => rfl
        | some e =>
          exact absurd (by simp [FetchCoalescer.isInFlight, hf]) hin
      have hzero : countInFlight s id = 0 := by
        simp only [countInFlight, List.length_eq_zero, List.filter_eq_nil_iff]
        exact fun e he => by simpa using (List.find?_eq_none.mp hnone) e he
      by_cases hi : (id == i) = true
      · have hii : id = i := by simpa using hi
        subst hii
        have hc : countInFlight (applyEvent s (.req id c)) id
            = countInFlight s id + 1 := by
          simp [applyEvent, FetchCoalescer.request, hin, countInFlight,
            List.filter_cons]
        rw [hc, hzero]
      · have hc : countInFlight (applyEvent s (.req id c)) i
            = countInFlight s i := by
          simp [applyEvent, FetchCoalescer.request, hin, countInFlight,
            List.filter_cons, hi]
        rw [hc]
        exact h i
  | compl id =>
    intro i
    cases hf : s.inFlight.find? (fun e => e.1 == id) with
    | none => simpa [applyEvent, FetchCoalescer.complete, hf] using h i
    | some e =>
      have hle : countInFlight ⟨s.inFlight.filter (fun e => !(e.1 == id)),
          s.remoteCalls⟩ i ≤ countInFlight s i := by
        simp only [countInFlight, List.filter_filter]
        rw [← List.countP_eq_length_filter, ← List.countP_eq_length_filter]
        exact List.countP_mono_left (fun a _ hpa => by
          simp only [Bool.and_eq_true] at hpa
          exact hpa.1)
      calc countInFlight (applyEvent s (.compl id)) i
          = countInFlight ⟨s.inFlight.filter (fun e => !(e.1 == id)),
              s.remoteCalls⟩ i := by
            simp [applyEvent, FetchCoalescer.complete, hf]
        _ ≤ countInFlight s i := hle
        _ ≤ 1 := h i

/-- C7: fetch coalescing — while a fetch for an Identity is in flight,
a burst of N further fetch requests for it makes zero additional remote
calls; when the fetch completes, every delivered result carries the same
outcome, and each of the N callers receives it; moreover every coalescing
state reachable from the empty state has at most one in-flight fetch per
Identity. -/
theorem fetch_coalescing {α : Type} (s : FetchCoalescer) (id : String)
    (callers : List Nat) (outcome : α) (ws : List Nat)
    (h : s.inFlight.find? (fun e => e.1 == id) = some (id, ws)) :
    ((s.requestAll id callers).remoteCalls = s.remoteCalls) ∧
    (∀ d ∈ ((s.requestAll id callers).complete id outcome).2, d.2 = outcome) ∧
    (∀ c ∈ callers,
      (c, outcome) ∈ ((s.requestAll id callers).complete id outcome).2) ∧
    (∀ evs : List FetchEvent, ∀ i : String,
      countInFlight (runEvents FetchCoalescer.empty evs) i ≤ 1) := by
  obtain ⟨ws', h1, _, h3, h4, _⟩ := requestAll_spec id callers s ws h
  have hdeliver : ((s.requestAll id callers).complete id outcome).2
      = ws'.map (fun c => (c, outcome)) := by
    simp [FetchCoalescer.complete, h1]
  refine ⟨h4, ?_, ?_, ?_⟩
  · intro d hd
    rw [hdeliver] at hd
    obtain ⟨c, _, hcd⟩ := List.mem_map.mp hd
    exact hcd ▸ rfl
  · intro c hc
    rw [hdeliver]
    exact List.mem_map.mpr ⟨c, h3 c hc, rfl⟩
  · have hrun : ∀ evs : List FetchEvent, ∀ st : FetchCoalescer,
        (∀ i, countInFlight st i ≤ 1) →
        ∀ i, countInFlight (runEvents st evs) i ≤ 1 := by
      intro evs
      induction evs with
      | nil => intro st hst i; exact hst i
      | cons ev evs ih =>
        intro st hst i
        exact ih (applyEvent st ev) (applyEvent_at_most_one st ev hst) i
    intro evs i
    exact hrun evs FetchCoalescer.empty
      (fun _ => by simp [countInFlight, FetchCoalescer.empty]) i

/-- C7 witness: with a fetch for `"uuid1"` in flight awaited by caller
`0`, the burst of requests by callers `1` and `2` makes no remote call and
both receive the completed outcome `"stats"`. -/
theorem fetch_coalescing_witness :
    ((FetchCoalescer.mk [("uuid1", [0])] 1).requestAll "uuid1" [1, 2]).remoteCalls
      = (FetchCoalescer.mk [("uuid1", [0])] 1).remoteCalls ∧
    ((1, "stats") ∈ (((FetchCoalescer.mk [("uuid1", [0])] 1).requestAll "uuid1"
        [1, 2]).complete "uuid1" "stats").2 ∧
      (2, "stats") ∈ (((FetchCoalescer.mk [("uuid1", [0])] 1).requestAll "uuid1"
        [1, 2]).complete "uuid1" "stats").2) := by
  obtain ⟨h1, _, h3, _⟩ :=
    fetch_coalescing (FetchCoalescer.mk [("uuid1", [0])] 1) "uuid1" [1, 2]
      "stats" [0] (by simp)
  exact ⟨h1, h3 1 (by simp), h3 2 (by simp)⟩

/-- C5: per-identity stats fetch error taxonomy — a not-found error yields
the terminal `notFound` (playerdata `None`); a throttling, invalid-key or
generic API error yields the non-terminal `ERROR_DURING_PROCESSING`
placeholder; a success yields its data; and the call is a total function
of the fetch outcome (no exception propagates in any error case). -/
theorem playerdata_error_taxonomy {α : Type} (nowMs : Int) (d : α) :
    (controller_get_playerdata nowMs (.playerNotFoundError : PlayerDataOutcome α)
      = (nowMs, .notFound)) ∧
    (controller_get_playerdata nowMs (.apiThrottleError : PlayerDataOutcome α)
      = (nowMs, .errorDuringProcessing)) ∧
    (controller_get_playerdata nowMs (.apiKeyError : PlayerDataOutcome α)
      = (nowMs, .errorDuringProcessing)) ∧
    (controller_get_playerdata nowMs (.apiError : PlayerDataOutcome α)
      = (nowMs, .errorDuringProcessing)) ∧
    (controller_get_playerdata nowMs (.ok d) = (nowMs, .found d)) :=
  ⟨rfl, rfl, rfl, rfl, rfl⟩

/-- C8: the log event classifier is a pure, total function — every line
maps to `None` or exactly one typed Event (never an error); with the
ambient shared state made explicit the classifier returns it untouched;
and two invocations on the same line return the same result. -/
theorem classify_pure_total {σ : Type} (line l₁ l₂ : String) (s : σ)
    (h : l₁ = l₂) :
    (parse_logline line = none ∨ ∃ e : Event, parse_logline line = some e) ∧
    classifyWithState l₁ s = (parse_logline l₂, s) ∧
    parse_logline l₁ = parse_logline l₂ := by
  refine ⟨?_, by rw [h]; rfl, by rw [h]⟩
  cases hp : parse_logline line
  · exact .inl rfl
  · exact .inr ⟨_, rfl⟩

/-- C8 witness: classifying a lobby-join chat line touches no state and is
repeatable; the classifier recognizes the line as a lobby join. -/
theorem classify_pure_total_witness :
    classifyWithState "[Client thread/INFO]: [CHAT] Player1 has joined (2/8)!"
        (5 : Nat)
      = (parse_logline "[Client thread/INFO]: [CHAT] Player1 has joined (2/8)!",
          5) ∧
    parse_logline "[Client thread/INFO]: [CHAT] Player1 has joined (2/8)!"
      = some (.lobbyJoin "Player1") :=
  ⟨(classify_pure_total
      "[Client thread/INFO]: [CHAT] Player1 has joined (2/8)!"
      "[Client thread/INFO]: [CHAT] Player1 has joined (2/8)!"
      "[Client thread/INFO]: [CHAT] Player1 has joined (2/8)!"
      (5 : Nat) rfl).2.1, by decide⟩

/-- C2 witness: the `limit=100, window=60` limiter of
`AntiSniperAPIKeyHolder`, on the valid trace of acquisitions at instants
`30` and `0`, stays within the bound at `now = 100` and can admit a
further acquisition. -/
theorem rate_limiter_window_bound_witness :
    countWindow REQUEST_WINDOW 100 [30, 0] ≤ REQUEST_LIMIT ∧
    validTrace REQUEST_LIMIT REQUEST_WINDOW [30, 0] = true :=
  ⟨(rate_limiter_window_bound REQUEST_LIMIT REQUEST_WINDOW [30, 0]
      (by decide)).1 100, by decide⟩

end Prism
